import Mathlib

/-!
Shallow embedding of the EncryptedGuessingGame Solidity contract
(contracts source: EncryptedGuessingGame.sol).

Modelling choices:
* An address is a natural number; 0 is the null address.
* An euint32 ciphertext is modelled as a pair of a handle (a fresh
  identifier allocated by the FHE coprocessor) and the plaintext value it
  decrypts to, a natural number below 2^32.  An ebool ciphertext is a
  handle together with its plaintext boolean.
* The FHE access-control list is the list of grants (handle, grantee)
  issued by FHE.allowThis and FHE.allow.
* keccak256 over the abi-encoded tuple is an abstract function supplied by
  the environment (Env.keccak); the contract only pipes its output through
  the modulo-20-plus-1 reduction.
* Each external state-mutating function returns the post state paired with
  an Except result; the EVM rolls back all writes on revert, so a revert is
  modelled as returning the entry state together with the error.
-/

namespace EncryptedGuessingGame

/-- 2^32, the modulus of euint32 arithmetic. -/
def M32 : Nat := 4294967296

/-- ENTRY_FEE constant of the contract: 1e15 wei (0.001 ether). -/
def ENTRY_FEE : Nat := 1000000000000000

/-- An euint32 ciphertext: coprocessor handle plus the plaintext it decrypts to. -/
structure Cipher where
  handle : Nat
  val : Nat
deriving Repr, DecidableEq

/-- An ebool ciphertext: coprocessor handle plus the plaintext boolean. -/
structure EBool where
  handle : Nat
  bval : Bool
deriving Repr, DecidableEq

/-- A grantee of FHE decryption rights: the contract itself (allowThis) or a user address (allow). -/
inductive Grantee where
  | contract : Grantee
  | user (a : Nat) : Grantee
deriving Repr, DecidableEq

/-- Events emitted by the contract. -/
inductive GameEvent where
  | PlayerJoined (player round : Nat) : GameEvent
  | GuessEvaluated (player round : Nat) : GameEvent
  | Withdrawal (recipient amount : Nat) : GameEvent
deriving Repr, DecidableEq

/-- Solidity struct PlayerState: encrypted secret, encrypted last result, joined flag. -/
structure PlayerState where
  secret : Cipher
  lastResult : Cipher
  joined : Bool
deriving Repr, DecidableEq

/-- Storage-default PlayerState: zero handles, not joined. -/
def defaultPlayer : PlayerState := ⟨⟨0, 0⟩, ⟨0, 0⟩, false⟩

/-- Custom errors of the contract. -/
inductive GameError where
  | InvalidEntryFee
  | PlayerNotJoined
  | InvalidRecipient
  | InvalidAmount
  | WithdrawalFailed
  | NotOwner
deriving Repr, DecidableEq

/-- Full contract state: owner, global nonce, player mapping, rounds mapping,
ether balance, plus the FHE coprocessor bookkeeping (fresh-handle counter and
access-control list) and the emitted event log (most recent first). -/
structure GameState where
  owner : Nat
  nonce : Nat
  players : Nat → PlayerState
  rounds : Nat → Nat
  balance : Nat
  nextHandle : Nat
  acl : List (Nat × Grantee)
  events : List GameEvent

/-- State at deployment: msg.sender of the constructor becomes the immutable owner;
all mappings hold their storage defaults.  Handle 0 is reserved for the
uninitialized ciphertext, so fresh handles start at 1. -/
def initialState (deployer : Nat) : GameState :=
  { owner := deployer
    nonce := 0
    players := fun _ => defaultPlayer
    rounds := fun _ => 0
    balance := 0
    nextHandle := 1
    acl := []
    events := [] }

/-- Call environment: caller, attached value, block data, and the keccak256
hash of abi.encodePacked(timestamp, prevBlockhash, player, nonce) as an
abstract function. -/
structure Env where
  msgSender : Nat
  msgValue : Nat
  blockTimestamp : Nat
  prevBlockhash : Nat
  keccak : Nat → Nat → Nat → Nat → Nat

/-- Write a player record into the players mapping. -/
def setPlayer (st : GameState) (a : Nat) (p : PlayerState) : GameState :=
  { st with players := fun x => if x = a then p else st.players x }

/-- Write a round counter into the rounds mapping. -/
def setRound (st : GameState) (a r : Nat) : GameState :=
  { st with rounds := fun x => if x = a then r else st.rounds x }

/-- Allocate a fresh ciphertext handle. -/
def allocHandle (st : GameState) : GameState × Nat :=
  ({ st with nextHandle := st.nextHandle + 1 }, st.nextHandle)

/-- FHE.asEuint32: trivially encrypt a plaintext uint32. -/
def fheAsEuint32 (st : GameState) (v : Nat) : GameState × Cipher :=
  let p := allocHandle st
  (p.1, ⟨p.2, v % M32⟩)

/-- FHE.fromExternal: import an external ciphertext with its input proof; the
resulting euint32 decrypts to the uint32 the client encrypted. -/
def fheFromExternal (st : GameState) (ext : Nat) : GameState × Cipher :=
  let p := allocHandle st
  (p.1, ⟨p.2, ext % M32⟩)

/-- FHE.gt on euint32 ciphertexts. -/
def fheGt (st : GameState) (a b : Cipher) : GameState × EBool :=
  let p := allocHandle st
  (p.1, ⟨p.2, decide (b.val < a.val)⟩)

/-- FHE.eq on euint32 ciphertexts. -/
def fheEq (st : GameState) (a b : Cipher) : GameState × EBool :=
  let p := allocHandle st
  (p.1, ⟨p.2, decide (a.val = b.val)⟩)

/-- FHE.select on euint32 ciphertexts. -/
def fheSelect (st : GameState) (c : EBool) (a b : Cipher) : GameState × Cipher :=
  let p := allocHandle st
  (p.1, ⟨p.2, if c.bval then a.val else b.val⟩)

/-- FHE.sub on euint32 ciphertexts (wrapping modulo 2^32). -/
def fheSub (st : GameState) (a b : Cipher) : GameState × Cipher :=
  let p := allocHandle st
  (p.1, ⟨p.2, (a.val + (M32 - b.val % M32)) % M32⟩)

/-- FHE.allowThis: grant the contract decryption rights over a ciphertext. -/
def fheAllowThis (st : GameState) (c : Cipher) : GameState :=
  { st with acl := (c.handle, Grantee.contract) :: st.acl }

/-- FHE.allow: grant a user address decryption rights over a ciphertext. -/
def fheAllow (st : GameState) (c : Cipher) (a : Nat) : GameState :=
  { st with acl := (c.handle, Grantee.user a) :: st.acl }

/-- _generateSecret: increment the global nonce, hash
(block.timestamp, blockhash(block.number-1), player, nonce), reduce modulo 20,
add 1, and cast to uint32. -/
def generateSecret (env : Env) (st : GameState) : GameState × Nat :=
  let st1 := { st with nonce := st.nonce + 1 }
  let randomness := env.keccak env.blockTimestamp env.prevBlockhash env.msgSender st1.nonce
  (st1, (randomness % 20 + 1) % M32)

/-- joinGame: payable; reverts with InvalidEntryFee unless msg.value equals
ENTRY_FEE; otherwise derives a fresh secret, trivially encrypts it and the
reset result 0, overwrites the caller's PlayerState, grants the contract
access to both ciphertexts, pre-increments the caller's round, emits
PlayerJoined, and returns the encrypted secret. -/
def joinGame (env : Env) (st0 : GameState) : GameState × Except GameError Cipher :=
  if env.msgValue ≠ ENTRY_FEE then
    (st0, Except.error GameError.InvalidEntryFee)
  else
    let st := { st0 with balance := st0.balance + env.msgValue }
    let g := generateSecret env st
    let st := g.1
    let secretValue := g.2
    let e := fheAsEuint32 st secretValue
    let st := e.1
    let encryptedSecret := e.2
    let r := fheAsEuint32 st 0
    let st := r.1
    let resetResult := r.2
    let st := setPlayer st env.msgSender ⟨encryptedSecret, resetResult, true⟩
    let st := fheAllowThis st encryptedSecret
    let st := fheAllowThis st resetResult
    let round := st.rounds env.msgSender + 1
    let st := setRound st env.msgSender round
    let st := { st with events := GameEvent.PlayerJoined env.msgSender round :: st.events }
    (st, Except.ok encryptedSecret)

/-- submitGuess: reverts with PlayerNotJoined unless the caller has joined;
otherwise imports the external guess, computes the absolute difference with
the stored secret through gt/select/sub, classifies it into 1..4 through
nested eq/select, stores the classification as the caller's lastResult,
grants the contract and the caller access to it, and emits GuessEvaluated. -/
def submitGuess (env : Env) (st0 : GameState) (extGuess : Nat) :
    GameState × Except GameError Unit :=
  let state := st0.players env.msgSender
  if state.joined = false then
    (st0, Except.error GameError.PlayerNotJoined)
  else
    let i := fheFromExternal st0 extGuess
    let st := i.1
    let guessValue := i.2
    let secretValue := state.secret
    let c := fheGt st guessValue secretValue
    let st := c.1
    let guessGreaterThanSecret := c.2
    let s1 := fheSelect st guessGreaterThanSecret guessValue secretValue
    let st := s1.1
    let s2 := fheSelect st guessGreaterThanSecret secretValue guessValue
    let st := s2.1
    let d := fheSub st s1.2 s2.2
    let st := d.1
    let difference := d.2
    let z0 := fheAsEuint32 st 0
    let st := z0.1
    let q0 := fheEq st difference z0.2
    let st := q0.1
    let k1 := fheAsEuint32 st 1
    let st := k1.1
    let z1 := fheAsEuint32 st 1
    let st := z1.1
    let q1 := fheEq st difference z1.2
    let st := q1.1
    let k2 := fheAsEuint32 st 2
    let st := k2.1
    let z2 := fheAsEuint32 st 2
    let st := z2.1
    let q2 := fheEq st difference z2.2
    let st := q2.1
    let k3 := fheAsEuint32 st 3
    let st := k3.1
    let k4 := fheAsEuint32 st 4
    let st := k4.1
    let inner2 := fheSelect st q2.2 k3.2 k4.2
    let st := inner2.1
    let inner1 := fheSelect st q1.2 k2.2 inner2.2
    let st := inner1.1
    let f := fheSelect st q0.2 k1.2 inner1.2
    let st := f.1
    let finalResult := f.2
    let st := setPlayer st env.msgSender
      { st.players env.msgSender with lastResult := finalResult }
    let st := fheAllowThis st finalResult
    let st := fheAllow st finalResult env.msgSender
    let st := { st with
      events := GameEvent.GuessEvaluated env.msgSender (st.rounds env.msgSender) :: st.events }
    (st, Except.ok ())

/-- getLatestResult view: the encrypted feedback from the latest guess by a player. -/
def getLatestResult (st : GameState) (player : Nat) : Cipher :=
  (st.players player).lastResult

/-- getEncryptedSecret view: the encrypted secret assigned to a player. -/
def getEncryptedSecret (st : GameState) (player : Nat) : Cipher :=
  (st.players player).secret

/-- hasJoined view. -/
def hasJoined (st : GameState) (player : Nat) : Bool :=
  (st.players player).joined

/-- getRound view. -/
def getRound (st : GameState) (player : Nat) : Nat :=
  st.rounds player

/-- entryFee view. -/
def entryFee : Nat := ENTRY_FEE

/-- owner view. -/
def ownerView (st : GameState) : Nat := st.owner

/-- withdraw: onlyOwner; reverts with InvalidRecipient for the null address,
InvalidAmount for amount zero or above the held balance, WithdrawalFailed if
the low-level value transfer is rejected; on success moves the funds and
emits Withdrawal. transferOk models whether the recipient accepts the call. -/
def withdraw (env : Env) (st : GameState) (recipient amount : Nat)
    (transferOk : Bool) : GameState × Except GameError Unit :=
  if env.msgSender ≠ st.owner then
    (st, Except.error GameError.NotOwner)
  else if recipient = 0 then
    (st, Except.error GameError.InvalidRecipient)
  else if amount = 0 ∨ st.balance < amount then
    (st, Except.error GameError.InvalidAmount)
  else if transferOk = false then
    (st, Except.error GameError.WithdrawalFailed)
  else
    ({ st with
        balance := st.balance - amount
        events := GameEvent.Withdrawal recipient amount :: st.events },
      Except.ok ())

/-- One externally-triggered state-mutating call. -/
inductive Op where
  | join (env : Env) : Op
  | guess (env : Env) (extGuess : Nat) : Op
  | withdrawCall (env : Env) (recipient amount : Nat) (transferOk : Bool) : Op

/-- Apply one call to the state (reverts leave the state unchanged). -/
def applyOp (st : GameState) : Op → GameState
  | Op.join env => (joinGame env st).1
  | Op.guess env ext => (submitGuess env st ext).1
  | Op.withdrawCall env r a ok => (withdraw env st r a ok).1

/-- Run a sequence of calls. -/
def runOps (st : GameState) (ops : List Op) : GameState :=
  ops.foldl applyOp st


/-- The plaintext classification submitGuess computes for a (reduced) guess
value gv against a stored secret value sv, mirroring the gt/select/sub
difference and the nested eq/select cascade. -/
def resultCode (gv sv : Nat) : Nat :=
  let mx := if sv < gv then gv else sv
  let mn := if sv < gv then sv else gv
  let d := (mx + (M32 - mn % M32)) % M32
  if d = 0 then 1 else if d = 1 then 2 else if d = 2 then 3 else 4

theorem submitGuess_ok (env : Env) (st : GameState) (g : Nat)
    (hj : (st.players env.msgSender).joined = true) :
    (submitGuess env st g).2 = Except.ok () ∧
    ((submitGuess env st g).1.players env.msgSender).lastResult.val
      = resultCode (g % M32) ((st.players env.msgSender).secret.val) := by
  unfold submitGuess resultCode
  simp [hj, fheFromExternal, fheGt, fheSelect, fheSub, fheEq, fheAsEuint32,
    fheAllowThis, fheAllow, setPlayer, allocHandle]
  norm_num [M32]

/-- Characterization of resultCode for in-range uint32 inputs: the cascade
classifies the exact absolute difference. -/
theorem resultCode_spec (g s : Nat) (hg : g < M32) (hs : s < M32) :
    resultCode g s =
      if g = s then 1
      else if ((g : Int) - s).natAbs = 1 then 2
      else if ((g : Int) - s).natAbs = 2 then 3
      else 4 := by
  simp only [resultCode, M32] at *
  split_ifs <;> omega

/-- The classification is symmetric in guess and secret. -/
theorem resultCode_symm (g s : Nat) (hg : g < M32) (hs : s < M32) :
    resultCode g s = resultCode s g := by
  simp only [resultCode, M32] at *
  split_ifs <;> omega

/-- Explicit description of a successful joinGame call. -/
theorem joinGame_eq (env : Env) (st : GameState) (hfee : env.msgValue = ENTRY_FEE) :
    joinGame env st =
      ({ owner := st.owner
         nonce := st.nonce + 1
         players := fun x => if x = env.msgSender then
             ⟨⟨st.nextHandle,
                (env.keccak env.blockTimestamp env.prevBlockhash env.msgSender (st.nonce + 1) % 20
                  + 1) % M32⟩,
               ⟨st.nextHandle + 1, 0⟩, true⟩
           else st.players x
         rounds := fun x => if x = env.msgSender then st.rounds env.msgSender + 1 else st.rounds x
         balance := st.balance + ENTRY_FEE
         nextHandle := st.nextHandle + 2
         acl := (st.nextHandle + 1, Grantee.contract) :: (st.nextHandle, Grantee.contract) :: st.acl
         events := GameEvent.PlayerJoined env.msgSender (st.rounds env.msgSender + 1) :: st.events },
       Except.ok ⟨st.nextHandle,
         (env.keccak env.blockTimestamp env.prevBlockhash env.msgSender (st.nonce + 1) % 20 + 1)
           % M32⟩) := by
  unfold joinGame generateSecret fheAsEuint32 allocHandle setPlayer setRound fheAllowThis
  simp [hfee]

/-- A concrete hash function for test environments. -/
def testKeccak : Nat → Nat → Nat → Nat → Nat := fun a b c d => a + b + c + d

/-- A concrete call environment paying the exact entry fee from address 7. -/
def testEnv : Env := ⟨7, ENTRY_FEE, 100, 555, testKeccak⟩

/-- A concrete state in which address 7 has joined and holds the secret v. -/
def stateWithSecret (v : Nat) : GameState :=
  { initialState 3 with
      players := fun x => if x = 7 then ⟨⟨1, v⟩, ⟨2, 0⟩, true⟩ else defaultPlayer }

/-- C1: for every secret s and guess g, both in [1,20], a successful
submitGuess stores a result code that decrypts to 1 iff g = s, to 2 iff
the absolute difference is 1, to 3 iff it is 2, and to 4 otherwise; and the
evaluation is symmetric: a caller holding secret g who guesses s receives
the same code as a caller holding secret s who guesses g. -/
theorem C1_classification (env env2 : Env) (st st2 : GameState) (s g : Nat)
    (hj : (st.players env.msgSender).joined = true)
    (hj2 : (st2.players env2.msgSender).joined = true)
    (hsec : (st.players env.msgSender).secret.val = s)
    (hsec2 : (st2.players env2.msgSender).secret.val = g)
    (hs1 : 1 ≤ s) (hs2 : s ≤ 20) (hg1 : 1 ≤ g) (hg2 : g ≤ 20) :
    (submitGuess env st g).2 = Except.ok () ∧
    (submitGuess env2 st2 s).2 = Except.ok () ∧
    (((submitGuess env st g).1.players env.msgSender).lastResult.val = 1 ↔ g = s) ∧
    (((submitGuess env st g).1.players env.msgSender).lastResult.val = 2 ↔
      ((g : Int) - s).natAbs = 1) ∧
    (((submitGuess env st g).1.players env.msgSender).lastResult.val = 3 ↔
      ((g : Int) - s).natAbs = 2) ∧
    (((submitGuess env st g).1.players env.msgSender).lastResult.val = 4 ↔
      2 < ((g : Int) - s).natAbs) ∧
    ((submitGuess env2 st2 s).1.players env2.msgSender).lastResult.val
      = ((submitGuess env st g).1.players env.msgSender).lastResult.val := by
  obtain ⟨h1, h2⟩ := submitGuess_ok env st g hj
  obtain ⟨h3, h4⟩ := submitGuess_ok env2 st2 s hj2
  have hg' : g < M32 := by unfold M32; omega
  have hs' : s < M32 := by unfold M32; omega
  have hgm : g % M32 = g := Nat.mod_eq_of_lt hg'
  have hsm : s % M32 = s := Nat.mod_eq_of_lt hs'
  rw [hsec, hgm] at h2
  rw [hsec2, hsm] at h4
  rw [h2, h4, resultCode_symm s g hs' hg', resultCode_spec g s hg' hs']
  refine ⟨h1, h3, ?_, ?_, ?_, ?_, rfl⟩ <;> split_ifs <;> omega

/-- Witness for C1 at secret 4, guess 5 (and the symmetric run). -/
theorem C1_classification_witness :
    ((stateWithSecret 4).players testEnv.msgSender).joined = true ∧
    ((stateWithSecret 4).players testEnv.msgSender).secret.val = 4 ∧
    ((stateWithSecret 5).players testEnv.msgSender).secret.val = 5 ∧
    ((submitGuess testEnv (stateWithSecret 4) 5).2 = Except.ok () ∧
     (submitGuess testEnv (stateWithSecret 5) 4).2 = Except.ok () ∧
     (((submitGuess testEnv (stateWithSecret 4) 5).1.players testEnv.msgSender).lastResult.val = 1 ↔
       (5 : Nat) = 4) ∧
     (((submitGuess testEnv (stateWithSecret 4) 5).1.players testEnv.msgSender).lastResult.val = 2 ↔
       (((5 : Nat) : Int) - (4 : Nat)).natAbs = 1) ∧
     (((submitGuess testEnv (stateWithSecret 4) 5).1.players testEnv.msgSender).lastResult.val = 3 ↔
       (((5 : Nat) : Int) - (4 : Nat)).natAbs = 2) ∧
     (((submitGuess testEnv (stateWithSecret 4) 5).1.players testEnv.msgSender).lastResult.val = 4 ↔
       2 < (((5 : Nat) : Int) - (4 : Nat)).natAbs) ∧
     ((submitGuess testEnv (stateWithSecret 5) 4).1.players testEnv.msgSender).lastResult.val
       = ((submitGuess testEnv (stateWithSecret 4) 5).1.players testEnv.msgSender).lastResult.val) :=
  ⟨by decide, by decide, by decide,
    C1_classification testEnv testEnv (stateWithSecret 4) (stateWithSecret 5) 4 5
      (by decide) (by decide) (by decide) (by decide)
      (by decide) (by decide) (by decide) (by decide)⟩

/-- C3: joinGame reverts with InvalidEntryFee exactly when the payment
differs from ENTRY_FEE, and such a revert returns the entry state unchanged
(no player record, round counter or nonce mutation). -/
theorem C3_invalidFee (env : Env) (st : GameState) :
    ((joinGame env st).2 = Except.error GameError.InvalidEntryFee ↔
      env.msgValue ≠ ENTRY_FEE) ∧
    (env.msgValue ≠ ENTRY_FEE →
      joinGame env st = (st, Except.error GameError.InvalidEntryFee)) := by
  constructor
  · constructor
    · intro h hc
      rw [joinGame_eq env st hc] at h
      exact Except.noConfusion h
    · intro h
      unfold joinGame
      simp [h]
  · intro h
    unfold joinGame
    simp [h]

/-- Witness for C3 at fee plus 1. -/
theorem C3_invalidFee_witness :
    (((joinGame { testEnv with msgValue := ENTRY_FEE + 1 } (initialState 3)).2
        = Except.error GameError.InvalidEntryFee ↔
      ({ testEnv with msgValue := ENTRY_FEE + 1 } : Env).msgValue ≠ ENTRY_FEE) ∧
     (({ testEnv with msgValue := ENTRY_FEE + 1 } : Env).msgValue ≠ ENTRY_FEE →
      joinGame { testEnv with msgValue := ENTRY_FEE + 1 } (initialState 3)
        = (initialState 3, Except.error GameError.InvalidEntryFee))) :=
  C3_invalidFee { testEnv with msgValue := ENTRY_FEE + 1 } (initialState 3)

/-- C4: a caller whose joined flag is false gets PlayerNotJoined from
submitGuess with the whole state unchanged; a caller whose joined flag is
true never gets that error. -/
theorem C4_notJoined (env : Env) (st : GameState) (g : Nat) :
    ((st.players env.msgSender).joined = false →
      submitGuess env st g = (st, Except.error GameError.PlayerNotJoined)) ∧
    ((st.players env.msgSender).joined = true →
      (submitGuess env st g).2 ≠ Except.error GameError.PlayerNotJoined) := by
  constructor
  · intro h
    unfold submitGuess
    simp [h]
  · intro h
    rw [(submitGuess_ok env st g h).1]
    simp

/-- Witness for C4: fresh state (not joined) and a joined state. -/
theorem C4_notJoined_witness :
    ((((initialState 3).players testEnv.msgSender).joined = false →
      submitGuess testEnv (initialState 3) 5
        = (initialState 3, Except.error GameError.PlayerNotJoined)) ∧
     (((initialState 3).players testEnv.msgSender).joined = true →
      (submitGuess testEnv (initialState 3) 5).2
        ≠ Except.error GameError.PlayerNotJoined)) ∧
    ((((stateWithSecret 4).players testEnv.msgSender).joined = false →
      submitGuess testEnv (stateWithSecret 4) 5
        = (stateWithSecret 4, Except.error GameError.PlayerNotJoined)) ∧
     (((stateWithSecret 4).players testEnv.msgSender).joined = true →
      (submitGuess testEnv (stateWithSecret 4) 5).2
        ≠ Except.error GameError.PlayerNotJoined)) :=
  ⟨C4_notJoined testEnv (initialState 3) 5, C4_notJoined testEnv (stateWithSecret 4) 5⟩

/-- A reverted joinGame (wrong fee) returns the entry state unchanged. -/
theorem joinGame_err (env : Env) (st : GameState) (h : env.msgValue ≠ ENTRY_FEE) :
    joinGame env st = (st, Except.error GameError.InvalidEntryFee) := by
  unfold joinGame
  simp [h]

/-- A reverted submitGuess (caller not joined) returns the entry state unchanged. -/
theorem submitGuess_err (env : Env) (st : GameState) (g : Nat)
    (h : (st.players env.msgSender).joined = false) :
    submitGuess env st g = (st, Except.error GameError.PlayerNotJoined) := by
  unfold submitGuess
  simp [h]

/-- submitGuess never touches the rounds mapping, the nonce, the owner, the
balance, any other player record, or the caller's secret and joined flag. -/
theorem submitGuess_frame (env : Env) (st : GameState) (g : Nat) :
    (submitGuess env st g).1.rounds = st.rounds ∧
    (submitGuess env st g).1.nonce = st.nonce ∧
    (submitGuess env st g).1.owner = st.owner ∧
    (submitGuess env st g).1.balance = st.balance ∧
    (∀ b, b ≠ env.msgSender → (submitGuess env st g).1.players b = st.players b) ∧
    ((submitGuess env st g).1.players env.msgSender).secret
      = (st.players env.msgSender).secret ∧
    ((submitGuess env st g).1.players env.msgSender).joined
      = (st.players env.msgSender).joined := by
  by_cases hj : (st.players env.msgSender).joined = true
  · unfold submitGuess
    simp [hj, fheFromExternal, fheGt, fheSelect, fheSub, fheEq, fheAsEuint32,
      fheAllowThis, fheAllow, setPlayer, allocHandle]
    intro b hb hb2
    exact absurd hb2 hb
  · have h0 : (st.players env.msgSender).joined = false := by
      revert hj
      cases (st.players env.msgSender).joined <;> simp
    rw [submitGuess_err env st g h0]
    simp

/-- withdraw never touches the players mapping, the rounds mapping or the nonce. -/
theorem withdraw_frame (env : Env) (st : GameState) (r amt : Nat) (ok : Bool) :
    (withdraw env st r amt ok).1.players = st.players ∧
    (withdraw env st r amt ok).1.rounds = st.rounds ∧
    (withdraw env st r amt ok).1.nonce = st.nonce := by
  unfold withdraw
  split_ifs <;> exact ⟨rfl, rfl, rfl⟩

/-- C2: every successful join derives and stores a secret equal to
keccak256(timestamp, previous blockhash, caller, nonce incremented before
hashing) reduced modulo 20 plus 1, a value in the interval from 1 to 20;
the returned ciphertext is the stored one. -/
theorem C2_secretDerivation (env : Env) (st : GameState)
    (hfee : env.msgValue = ENTRY_FEE) :
    ∃ c : Cipher,
      (joinGame env st).2 = Except.ok c ∧
      ((joinGame env st).1.players env.msgSender).secret = c ∧
      c.val = env.keccak env.blockTimestamp env.prevBlockhash env.msgSender (st.nonce + 1) % 20
        + 1 ∧
      1 ≤ c.val ∧ c.val ≤ 20 := by
  have h20 : env.keccak env.blockTimestamp env.prevBlockhash env.msgSender (st.nonce + 1) % 20
      < 20 := Nat.mod_lt _ (by omega)
  have hm : (env.keccak env.blockTimestamp env.prevBlockhash env.msgSender (st.nonce + 1) % 20
        + 1) % M32
      = env.keccak env.blockTimestamp env.prevBlockhash env.msgSender (st.nonce + 1) % 20 + 1 :=
    Nat.mod_eq_of_lt (by unfold M32; omega)
  rw [joinGame_eq env st hfee]
  refine ⟨_, rfl, by simp, ?_, ?_, ?_⟩
  · simpa using hm
  · simp only []
    rw [hm]
    omega
  · simp only []
    rw [hm]
    omega

/-- Witness for C2 on a fresh deployment. -/
theorem C2_secretDerivation_witness :
    testEnv.msgValue = ENTRY_FEE ∧
    (∃ c : Cipher,
      (joinGame testEnv (initialState 3)).2 = Except.ok c ∧
      ((joinGame testEnv (initialState 3)).1.players testEnv.msgSender).secret = c ∧
      c.val = testEnv.keccak testEnv.blockTimestamp testEnv.prevBlockhash testEnv.msgSender
        ((initialState 3).nonce + 1) % 20 + 1 ∧
      1 ≤ c.val ∧ c.val ≤ 20) :=
  ⟨rfl, C2_secretDerivation testEnv (initialState 3) rfl⟩

/-- A concrete state in which address 7 has joined and then had a guess
evaluated: its lastResult decrypts to a nonzero code. -/
def guessedState : GameState := (submitGuess testEnv (stateWithSecret 4) 9).1

/-- C5: every successful join installs the freshly derived secret, resets
lastResult to the sentinel 0 and sets joined to true, whatever the prior
record was; re-joining an already-joined participant performs the same full
reset. -/
theorem C5_joinResets (env : Env) (st : GameState)
    (hfee : env.msgValue = ENTRY_FEE) :
    ∃ c : Cipher,
      (joinGame env st).2 = Except.ok c ∧
      ((joinGame env st).1.players env.msgSender).secret = c ∧
      ((joinGame env st).1.players env.msgSender).lastResult.val = 0 ∧
      ((joinGame env st).1.players env.msgSender).joined = true := by
  rw [joinGame_eq env st hfee]
  exact ⟨_, rfl, by simp, by simp, by simp⟩

/-- Witness for C5: re-join from a state whose lastResult holds an evaluated
code (4), checking the reset still happens. -/
theorem C5_joinResets_witness :
    testEnv.msgValue = ENTRY_FEE ∧
    (guessedState.players 7).joined = true ∧
    (guessedState.players 7).lastResult.val = 4 ∧
    (∃ c : Cipher,
      (joinGame testEnv guessedState).2 = Except.ok c ∧
      ((joinGame testEnv guessedState).1.players testEnv.msgSender).secret = c ∧
      ((joinGame testEnv guessedState).1.players testEnv.msgSender).lastResult.val = 0 ∧
      ((joinGame testEnv guessedState).1.players testEnv.msgSender).joined = true) :=
  ⟨rfl, by decide, by decide, C5_joinResets testEnv guessedState rfl⟩

/-- A single call never decreases any round counter. -/
theorem applyOp_rounds_mono (st : GameState) (op : Op) (a : Nat) :
    st.rounds a ≤ (applyOp st op).rounds a := by
  cases op with
  | join env =>
      by_cases hfee : env.msgValue = ENTRY_FEE
      · rw [show applyOp st (Op.join env) = (joinGame env st).1 from rfl,
          joinGame_eq env st hfee]
        dsimp
        by_cases ha : a = env.msgSender
        · simp [ha]
        · simp [ha]
      · rw [show applyOp st (Op.join env) = (joinGame env st).1 from rfl,
          joinGame_err env st hfee]
  | guess env g =>
      rw [show applyOp st (Op.guess env g) = (submitGuess env st g).1 from rfl,
        (submitGuess_frame env st g).1]
  | withdrawCall env r amt ok =>
      rw [show applyOp st (Op.withdrawCall env r amt ok) = (withdraw env st r amt ok).1 from rfl,
        (withdraw_frame env st r amt ok).2.1]

/-- No sequence of calls ever decreases a round counter. -/
theorem runOps_rounds_mono (st : GameState) (ops : List Op) (a : Nat) :
    st.rounds a ≤ (runOps st ops).rounds a := by
  induction ops generalizing st with
  | nil => exact le_refl _
  | cons op rest ih =>
      exact le_trans (applyOp_rounds_mono st op a) (ih (applyOp st op))

/-- C6: the round counter starts at 0, a successful join increments the
caller's counter by exactly 1 (leaving everyone else's unchanged), a guess
submission never changes it, and it never decreases along any sequence of
calls. -/
theorem C6_roundCounter (deployer : Nat) (env : Env) (st : GameState) (a g : Nat)
    (ops : List Op) (hfee : env.msgValue = ENTRY_FEE) :
    getRound (initialState deployer) a = 0 ∧
    getRound (joinGame env st).1 env.msgSender = getRound st env.msgSender + 1 ∧
    (a ≠ env.msgSender → getRound (joinGame env st).1 a = getRound st a) ∧
    getRound (submitGuess env st g).1 a = getRound st a ∧
    getRound st a ≤ getRound (runOps st ops) a := by
  refine ⟨rfl, ?_, ?_, ?_, runOps_rounds_mono st ops a⟩
  · rw [joinGame_eq env st hfee]
    simp [getRound]
  · intro ha
    rw [joinGame_eq env st hfee]
    simp [getRound, ha]
  · unfold getRound
    rw [(submitGuess_frame env st g).1]

/-- Witness for C6 with a join, a guess and a two-call sequence. -/
theorem C6_roundCounter_witness :
    testEnv.msgValue = ENTRY_FEE ∧
    (getRound (initialState 3) 7 = 0 ∧
     getRound (joinGame testEnv (stateWithSecret 4)).1 testEnv.msgSender
       = getRound (stateWithSecret 4) testEnv.msgSender + 1 ∧
     ((9 : Nat) ≠ testEnv.msgSender →
       getRound (joinGame testEnv (stateWithSecret 4)).1 9 = getRound (stateWithSecret 4) 9) ∧
     getRound (submitGuess testEnv (stateWithSecret 4) 5).1 9 = getRound (stateWithSecret 4) 9 ∧
     getRound (stateWithSecret 4) 9
       ≤ getRound (runOps (stateWithSecret 4) [Op.join testEnv, Op.guess testEnv 5]) 9) := by
  refine ⟨rfl, ?_⟩
  have h := C6_roundCounter 3 testEnv (stateWithSecret 4) 9 5
    [Op.join testEnv, Op.guess testEnv 5] rfl
  exact ⟨(C6_roundCounter 3 testEnv (stateWithSecret 4) 7 5 [] rfl).1,
    h.2.1, h.2.2.1, h.2.2.2.1, h.2.2.2.2⟩

/-- C7 counterexample: concrete successful join by address 7 on a fresh
deployment; the new secret ciphertext receives handle 1, yet the access
control list receives only grants for the contract itself, and in
particular no grant of handle 1 to the joining participant 7 exists, so the
participant is not authorized to decrypt their own secret. -/
theorem C7_counterexample :
    (joinGame testEnv (initialState 3)).2
      = Except.ok ((joinGame testEnv (initialState 3)).1.players 7).secret ∧
    ((joinGame testEnv (initialState 3)).1.players 7).secret.handle = 1 ∧
    (joinGame testEnv (initialState 3)).1.acl
      = [(2, Grantee.contract), (1, Grantee.contract)] ∧
    ¬ ((1, Grantee.user 7) ∈ (joinGame testEnv (initialState 3)).1.acl) :=
  ⟨rfl, by decide, by decide, by decide⟩

/-- C7 amended: on every successful join the evaluating contract is granted
read-authorization over the new secret ciphertext and over the reset result
ciphertext, and these two contract grants are the only authorizations
added; no grant to the joining participant is issued. -/
theorem C7_amended (env : Env) (st : GameState) (hfee : env.msgValue = ENTRY_FEE) :
    ∃ c : Cipher,
      (joinGame env st).2 = Except.ok c ∧
      ((joinGame env st).1.players env.msgSender).secret = c ∧
      (joinGame env st).1.acl
        = (c.handle + 1, Grantee.contract) :: (c.handle, Grantee.contract) :: st.acl := by
  rw [joinGame_eq env st hfee]
  exact ⟨_, rfl, by simp, rfl⟩

/-- Witness for the amended C7 on a fresh deployment. -/
theorem C7_amended_witness :
    testEnv.msgValue = ENTRY_FEE ∧
    (∃ c : Cipher,
      (joinGame testEnv (initialState 3)).2 = Except.ok c ∧
      ((joinGame testEnv (initialState 3)).1.players testEnv.msgSender).secret = c ∧
      (joinGame testEnv (initialState 3)).1.acl
        = (c.handle + 1, Grantee.contract) :: (c.handle, Grantee.contract)
            :: (initialState 3).acl) :=
  ⟨rfl, C7_amended testEnv (initialState 3) rfl⟩

/-- C8: withdraw fails with NotOwner for any non-owner caller regardless of
recipient or amount; for the owner it fails with InvalidRecipient on the
null recipient, with InvalidAmount on a zero amount or one above the held
balance, and with WithdrawalFailed when the transfer is rejected; on
success the funds move and a Withdrawal event is recorded. -/
theorem C8_withdraw (env : Env) (st : GameState) (r amt : Nat) (ok : Bool) :
    (env.msgSender ≠ st.owner →
      withdraw env st r amt ok = (st, Except.error GameError.NotOwner)) ∧
    (env.msgSender = st.owner → r = 0 →
      withdraw env st r amt ok = (st, Except.error GameError.InvalidRecipient)) ∧
    (env.msgSender = st.owner → r ≠ 0 → (amt = 0 ∨ st.balance < amt) →
      withdraw env st r amt ok = (st, Except.error GameError.InvalidAmount)) ∧
    (env.msgSender = st.owner → r ≠ 0 → amt ≠ 0 → amt ≤ st.balance → ok = false →
      withdraw env st r amt ok = (st, Except.error GameError.WithdrawalFailed)) ∧
    (env.msgSender = st.owner → r ≠ 0 → amt ≠ 0 → amt ≤ st.balance → ok = true →
      (withdraw env st r amt ok).2 = Except.ok () ∧
      (withdraw env st r amt ok).1.balance = st.balance - amt ∧
      (withdraw env st r amt ok).1.events = GameEvent.Withdrawal r amt :: st.events) := by
  refine ⟨?_, ?_, ?_, ?_, ?_⟩
  · intro h
    unfold withdraw
    simp [h]
  · intro h1 h2
    unfold withdraw
    simp [h1, h2]
  · intro h1 h2 h3
    unfold withdraw
    simp [h1, h2, h3]
  · intro h1 h2 h3 h4 h5
    have hno : ¬ (amt = 0 ∨ st.balance < amt) := by omega
    unfold withdraw
    simp [h1, h2, hno, h5]
  · intro h1 h2 h3 h4 h5
    have hno : ¬ (amt = 0 ∨ st.balance < amt) := by omega
    unfold withdraw
    simp [h1, h2, hno, h5]

/-- Witness for C8: calls against a concrete joined state, as the
non-owner 7 and with owner-side conditions. -/
theorem C8_withdraw_witness :
    (((7 : Nat) ≠ 3 →
      withdraw testEnv (stateWithSecret 4) 9 1 true
        = (stateWithSecret 4, Except.error GameError.NotOwner)) ∧
     ((7 : Nat) = 3 → (9 : Nat) = 0 →
      withdraw testEnv (stateWithSecret 4) 9 1 true
        = (stateWithSecret 4, Except.error GameError.InvalidRecipient)) ∧
     ((7 : Nat) = 3 → (9 : Nat) ≠ 0 → ((1 : Nat) = 0 ∨ (stateWithSecret 4).balance < 1) →
      withdraw testEnv (stateWithSecret 4) 9 1 true
        = (stateWithSecret 4, Except.error GameError.InvalidAmount)) ∧
     ((7 : Nat) = 3 → (9 : Nat) ≠ 0 → (1 : Nat) ≠ 0 → 1 ≤ (stateWithSecret 4).balance →
      true = false →
      withdraw testEnv (stateWithSecret 4) 9 1 true
        = (stateWithSecret 4, Except.error GameError.WithdrawalFailed)) ∧
     ((7 : Nat) = 3 → (9 : Nat) ≠ 0 → (1 : Nat) ≠ 0 → 1 ≤ (stateWithSecret 4).balance →
      true = true →
      (withdraw testEnv (stateWithSecret 4) 9 1 true).2 = Except.ok () ∧
      (withdraw testEnv (stateWithSecret 4) 9 1 true).1.balance
        = (stateWithSecret 4).balance - 1 ∧
      (withdraw testEnv (stateWithSecret 4) 9 1 true).1.events
        = GameEvent.Withdrawal 9 1 :: (stateWithSecret 4).events)) :=
  C8_withdraw testEnv (stateWithSecret 4) 9 1 true

/-- C9: a successful guess submission only rewrites the caller's lastResult:
the caller's secret and joined flag, every other player record, the rounds
mapping, the global nonce, the owner and the held balance are untouched. -/
theorem C9_guessFrame (env : Env) (st : GameState) (g : Nat)
    (hj : (st.players env.msgSender).joined = true) :
    (submitGuess env st g).2 = Except.ok () ∧
    ((submitGuess env st g).1.players env.msgSender).secret
      = (st.players env.msgSender).secret ∧
    ((submitGuess env st g).1.players env.msgSender).joined
      = (st.players env.msgSender).joined ∧
    (∀ b, b ≠ env.msgSender → (submitGuess env st g).1.players b = st.players b) ∧
    (submitGuess env st g).1.rounds = st.rounds ∧
    (submitGuess env st g).1.nonce = st.nonce ∧
    (submitGuess env st g).1.owner = st.owner ∧
    (submitGuess env st g).1.balance = st.balance := by
  have hf := submitGuess_frame env st g
  exact ⟨(submitGuess_ok env st g hj).1, hf.2.2.2.2.2.1, hf.2.2.2.2.2.2,
    hf.2.2.2.2.1, hf.1, hf.2.1, hf.2.2.1, hf.2.2.2.1⟩

/-- Witness for C9 in a concrete joined state. -/
theorem C9_guessFrame_witness :
    ((stateWithSecret 4).players testEnv.msgSender).joined = true ∧
    ((submitGuess testEnv (stateWithSecret 4) 9).2 = Except.ok () ∧
     ((submitGuess testEnv (stateWithSecret 4) 9).1.players testEnv.msgSender).secret
       = ((stateWithSecret 4).players testEnv.msgSender).secret ∧
     ((submitGuess testEnv (stateWithSecret 4) 9).1.players testEnv.msgSender).joined
       = ((stateWithSecret 4).players testEnv.msgSender).joined ∧
     (∀ b, b ≠ testEnv.msgSender →
       (submitGuess testEnv (stateWithSecret 4) 9).1.players b
         = (stateWithSecret 4).players b) ∧
     (submitGuess testEnv (stateWithSecret 4) 9).1.rounds = (stateWithSecret 4).rounds ∧
     (submitGuess testEnv (stateWithSecret 4) 9).1.nonce = (stateWithSecret 4).nonce ∧
     (submitGuess testEnv (stateWithSecret 4) 9).1.owner = (stateWithSecret 4).owner ∧
     (submitGuess testEnv (stateWithSecret 4) 9).1.balance = (stateWithSecret 4).balance) :=
  ⟨by decide, C9_guessFrame testEnv (stateWithSecret 4) 9 (by decide)⟩

/-- The classification cascade only ever produces codes 1 to 4, whatever the
guess and secret values. -/
theorem resultCode_bounds (g s : Nat) : 1 ≤ resultCode g s ∧ resultCode g s ≤ 4 := by
  simp only [resultCode]
  split_ifs <;> omega

/-- Sentinel invariant: every stored lastResult decrypts to 0 or to a code 1..4. -/
def sentinelInv (st : GameState) : Prop :=
  ∀ a, (st.players a).lastResult.val = 0 ∨
    (1 ≤ (st.players a).lastResult.val ∧ (st.players a).lastResult.val ≤ 4)

theorem sentinelInv_initial (deployer : Nat) : sentinelInv (initialState deployer) := by
  intro a
  left
  rfl

theorem sentinelInv_applyOp (st : GameState) (op : Op) (h : sentinelInv st) :
    sentinelInv (applyOp st op) := by
  cases op with
  | join env =>
      by_cases hfee : env.msgValue = ENTRY_FEE
      · intro a
        rw [show applyOp st (Op.join env) = (joinGame env st).1 from rfl,
          joinGame_eq env st hfee]
        dsimp
        by_cases ha : a = env.msgSender
        · left
          simp [ha]
        · simpa [ha] using h a
      · intro a
        rw [show applyOp st (Op.join env) = (joinGame env st).1 from rfl,
          joinGame_err env st hfee]
        exact h a
  | guess env g =>
      intro a
      rw [show applyOp st (Op.guess env g) = (submitGuess env st g).1 from rfl]
      by_cases ha : a = env.msgSender
      · subst ha
        cases hj : (st.players env.msgSender).joined with
        | false =>
            rw [submitGuess_err env st g hj]
            exact h env.msgSender
        | true =>
            right
            rw [(submitGuess_ok env st g hj).2]
            exact resultCode_bounds _ _
      · rw [(submitGuess_frame env st g).2.2.2.2.1 a ha]
        exact h a
  | withdrawCall env r amt ok =>
      intro a
      rw [show applyOp st (Op.withdrawCall env r amt ok)
            = (withdraw env st r amt ok).1 from rfl,
        (withdraw_frame env st r amt ok).1]
      exact h a

theorem sentinelInv_runOps (st : GameState) (ops : List Op) (h : sentinelInv st) :
    sentinelInv (runOps st ops) := by
  induction ops generalizing st with
  | nil => exact h
  | cons op rest ih => exact ih (applyOp st op) (sentinelInv_applyOp st op h)

/-- C10: along any call sequence from deployment, getLatestResult decrypts
to the sentinel 0 or to a code 1..4; a successful join always stores the
sentinel 0, and a successful guess submission always stores a code 1..4,
for every uint32 guess value (not only guesses in the range 1..20); hence
the sentinel never collides with a genuine result code. -/
theorem C10_sentinel (deployer : Nat) (ops : List Op) (a : Nat)
    (env : Env) (st : GameState) (g : Nat) :
    ((getLatestResult (runOps (initialState deployer) ops) a).val = 0 ∨
      (1 ≤ (getLatestResult (runOps (initialState deployer) ops) a).val ∧
        (getLatestResult (runOps (initialState deployer) ops) a).val ≤ 4)) ∧
    (env.msgValue = ENTRY_FEE →
      (getLatestResult (joinGame env st).1 env.msgSender).val = 0) ∧
    ((st.players env.msgSender).joined = true →
      1 ≤ (getLatestResult (submitGuess env st g).1 env.msgSender).val ∧
      (getLatestResult (submitGuess env st g).1 env.msgSender).val ≤ 4) := by
  refine ⟨sentinelInv_runOps _ ops (sentinelInv_initial deployer) a, ?_, ?_⟩
  · intro hfee
    unfold getLatestResult
    rw [joinGame_eq env st hfee]
    simp
  · intro hj
    unfold getLatestResult
    rw [(submitGuess_ok env st g hj).2]
    exact resultCode_bounds _ _

/-- Witness for C10: a join-then-out-of-range-guess sequence, a concrete
join, and a concrete guess of 100 (outside 1..20). -/
theorem C10_sentinel_witness :
    (((getLatestResult (runOps (initialState 3)
          [Op.join testEnv, Op.guess testEnv 25]) 7).val = 0 ∨
      (1 ≤ (getLatestResult (runOps (initialState 3)
          [Op.join testEnv, Op.guess testEnv 25]) 7).val ∧
        (getLatestResult (runOps (initialState 3)
          [Op.join testEnv, Op.guess testEnv 25]) 7).val ≤ 4)) ∧
     (testEnv.msgValue = ENTRY_FEE →
      (getLatestResult (joinGame testEnv (stateWithSecret 4)).1 testEnv.msgSender).val = 0) ∧
     (((stateWithSecret 4).players testEnv.msgSender).joined = true →
      1 ≤ (getLatestResult (submitGuess testEnv (stateWithSecret 4) 100).1
            testEnv.msgSender).val ∧
      (getLatestResult (submitGuess testEnv (stateWithSecret 4) 100).1
            testEnv.msgSender).val ≤ 4)) :=
  C10_sentinel 3 [Op.join testEnv, Op.guess testEnv 25] 7 testEnv (stateWithSecret 4) 100

end EncryptedGuessingGame
